import Mathlib

/-!
Verification development for the document chunking / retrieval core of the
legal_qa_rag repository (`shared_libs/utils/doc_chunker.py`).

The Python functions are shallowly embedded as executable Lean definitions.
Python strings are modelled as Lean `String` (a list of unicode characters);
the Python string primitives used by the source (`strip`, `lower`,
`replace(" ", "")`, `split("\n")`, `"\n".join`, `in`-substring tests,
`endswith`, `partition`, `isupper`, `replace(old, "")`) are implemented
below as recursive functions on character lists.  `str.lower()` and
`str.isupper()` are modelled over ASCII plus the precomposed Vietnamese
alphabet, which covers every character the source's patterns and the
documents' text can case-map.
-/

namespace DocChunker

/-- Whitespace characters recognised by Python `str.strip()` and `\s`
(restricted to the ASCII range, which is all the source's inputs use). -/
def isPySpace (c : Char) : Bool :=
  c = ' ' || c = '\t' || c = '\n' || c = '\x0d' || c = '\x0b' || c = '\x0c'

/-- Uppercase/lowercase pairs of the precomposed Vietnamese alphabet,
used to model Python unicode case mapping beyond ASCII. -/
def viCasePairs : List (Char × Char) :=
  [('À', 'à'), ('Á', 'á'), ('Ả', 'ả'), ('Ã', 'ã'), ('Ạ', 'ạ'),
   ('Ă', 'ă'), ('Ằ', 'ằ'), ('Ắ', 'ắ'), ('Ẳ', 'ẳ'), ('Ẵ', 'ẵ'), ('Ặ', 'ặ'),
   ('Â', 'â'), ('Ầ', 'ầ'), ('Ấ', 'ấ'), ('Ẩ', 'ẩ'), ('Ẫ', 'ẫ'), ('Ậ', 'ậ'),
   ('Đ', 'đ'),
   ('È', 'è'), ('É', 'é'), ('Ẻ', 'ẻ'), ('Ẽ', 'ẽ'), ('Ẹ', 'ẹ'),
   ('Ê', 'ê'), ('Ề', 'ề'), ('Ế', 'ế'), ('Ể', 'ể'), ('Ễ', 'ễ'), ('Ệ', 'ệ'),
   ('Ì', 'ì'), ('Í', 'í'), ('Ỉ', 'ỉ'), ('Ĩ', 'ĩ'), ('Ị', 'ị'),
   ('Ò', 'ò'), ('Ó', 'ó'), ('Ỏ', 'ỏ'), ('Õ', 'õ'), ('Ọ', 'ọ'),
   ('Ô', 'ô'), ('Ồ', 'ồ'), ('Ố', 'ố'), ('Ổ', 'ổ'), ('Ỗ', 'ỗ'), ('Ộ', 'ộ'),
   ('Ơ', 'ơ'), ('Ờ', 'ờ'), ('Ớ', 'ớ'), ('Ở', 'ở'), ('Ỡ', 'ỡ'), ('Ợ', 'ợ'),
   ('Ù', 'ù'), ('Ú', 'ú'), ('Ủ', 'ủ'), ('Ũ', 'ũ'), ('Ụ', 'ụ'),
   ('Ư', 'ư'), ('Ừ', 'ừ'), ('Ứ', 'ứ'), ('Ử', 'ử'), ('Ữ', 'ữ'), ('Ự', 'ự'),
   ('Ỳ', 'ỳ'), ('Ý', 'ý'), ('Ỷ', 'ỷ'), ('Ỹ', 'ỹ'), ('Ỵ', 'ỵ')]

/-- Python `str.lower()` on one character (ASCII + Vietnamese alphabet). -/
def pyLowerChar (c : Char) : Char :=
  if 'A' ≤ c && c ≤ 'Z' then Char.ofNat (c.toNat + 32)
  else match viCasePairs.lookup c with
       | some l => l
       | none => c

/-- A character is cased (for `str.isupper()`) if it is an ASCII letter or a
Vietnamese letter from the table above. -/
def isCasedChar (c : Char) : Bool :=
  ('A' ≤ c && c ≤ 'Z') || ('a' ≤ c && c ≤ 'z') ||
  (viCasePairs.any fun p => p.1 = c || p.2 = c)

/-- A character counts as uppercase for `str.isupper()`. -/
def isUpperChar (c : Char) : Bool :=
  ('A' ≤ c && c ≤ 'Z') || (viCasePairs.any fun p => p.1 = c)

/-- Python `str.strip()` on a character list. -/
def pyStripL (l : List Char) : List Char :=
  ((l.dropWhile isPySpace).reverse.dropWhile isPySpace).reverse

/-- Python `str.strip()`. -/
def pyStrip (s : String) : String := ⟨pyStripL s.data⟩

/-- Python `str.lower()`. -/
def pyLower (s : String) : String := ⟨s.data.map pyLowerChar⟩

/-- The normalisation used throughout the source:
`text.lower().replace(" ", "")` (lowercase, then remove space characters). -/
def normalizeVn (s : String) : String :=
  ⟨(s.data.map pyLowerChar).filter (fun c => c ≠ ' ')⟩

/-- Python `str.isupper()`: at least one cased character and every cased
character uppercase. -/
def pyIsUpper (s : String) : Bool :=
  s.data.any isCasedChar && s.data.all (fun c => !isCasedChar c || isUpperChar c)

/-- Whether `needle` is a prefix of `hay` (character lists). -/
def isPrefL : List Char → List Char → Bool
  | [], _ => true
  | _ :: _, [] => false
  | a :: as, b :: bs => a = b && isPrefL as bs

/-- Python substring test `needle in hay` on character lists. -/
def inSubL (needle : List Char) : List Char → Bool
  | [] => isPrefL needle []
  | c :: rest => isPrefL needle (c :: rest) || inSubL needle rest

/-- Python substring test `needle in hay`. -/
def inSub (needle hay : String) : Bool := inSubL needle.data hay.data

/-- The remainder of `hay` after the first occurrence of `needle`,
or `none` if `needle` does not occur (used to model `re.search` with two
literal alternatives separated by a greedy gap). -/
def afterFirstL (needle : List Char) : List Char → Option (List Char)
  | [] => if isPrefL needle [] then some [] else none
  | c :: rest =>
      if isPrefL needle (c :: rest) then some ((c :: rest).drop needle.length)
      else afterFirstL needle rest

/-- Python `s.replace(old, "")`: remove every left-to-right, non-overlapping
occurrence of `old`; with `old = ""` Python's replace by `""` is the identity.
The fuel argument (always called with more fuel than the scanned length, and
decremented at least once per consumed character) only makes the recursion
structural; it never runs out. -/
def eraseAllAux (old : List Char) : Nat → List Char → List Char
  | _, [] => []
  | 0, s => s
  | fuel + 1, c :: rest =>
      if old ≠ [] && isPrefL old (c :: rest) then
        eraseAllAux old fuel ((c :: rest).drop old.length)
      else
        c :: eraseAllAux old fuel rest

/-- Python `s.replace(old, "")` on character lists. -/
def eraseAllL (old s : List Char) : List Char := eraseAllAux old (s.length + 1) s

/-- Python `s.replace(old, "")` on strings. -/
def pyEraseAll (s old : String) : String := ⟨eraseAllL old.data s.data⟩

/-- Python `s.split("\n")` on character lists. -/
def splitNLL : List Char → List (List Char)
  | [] => [[]]
  | c :: rest =>
      if c = '\n' then [] :: splitNLL rest
      else match splitNLL rest with
           | h :: t => (c :: h) :: t
           | [] => [[c]]

/-- Python `s.split("\n")`. -/
def pySplitNL (s : String) : List String := (splitNLL s.data).map fun l => ⟨l⟩

/-- Python `"\n".join(parts)`. -/
def joinNL : List String → String
  | [] => ""
  | [s] => s
  | s :: rest => s ++ "\n" ++ joinNL rest

/-- Python `s.endswith(suffix)`. -/
def endsWithB (s suffix : String) : Bool := suffix.data.isSuffixOf s.data

/-- Python `s.partition("_")` (keeping only the parts before and after the
first underscore; if there is no underscore the tail part is empty, exactly
as in Python where the last two components are empty). -/
def pyPartitionUnd (s : String) : String × String :=
  match afterFirstL ['_'] s.data with
  | some rest => (⟨(s.data.takeWhile (fun c => c ≠ '_'))⟩, ⟨rest⟩)
  | none => (s, "")

/-- Python slice `l[a:b]` for lists (0 ≤ a ≤ b cases, which is how the
source uses it). -/
def pySlice (l : List String) (a b : Nat) : List String := (l.drop a).take (b - a)

/-- One output segment of `identify_and_segment_document`. -/
structure Segment where
  docNumber : Nat
  content : String
deriving DecidableEq, Repr

/-- Loop state of `identify_and_segment_document`: the segments closed so
far, the current segment buffer, and `current_segment_start_idx`. -/
structure SegState where
  segments : List Segment
  cur : Segment
  startIdx : Nat
deriving DecidableEq, Repr

/-- Closing rule A pattern: `re.search(r"Nơi nhận:.*Lưu:", para, re.IGNORECASE)`.
Paragraphs never contain a newline (they come from `split("\n")`), so the
greedy dot-star gap makes the search equivalent to an occurrence of
case-insensitive "Nơi nhận:" followed anywhere later by "Lưu:". -/
def sigMatchB (p : String) : Bool :=
  match afterFirstL ("nơi nhận:".data) (p.data.map pyLowerChar) with
  | some rest => inSubL ("lưu:".data) rest
  | none => false

/-- Closing rule B marker pattern:
`re.match(r"Phụ lục\s+[IVXLCDM\-A-Za-z0-9\.]*", para, re.IGNORECASE)`.
Since the trailing character class is starred, the anchored match succeeds
exactly when the paragraph starts with case-insensitive "Phụ lục" followed
by at least one whitespace character. -/
def phuLucMatchB (p : String) : Bool :=
  let l := p.data.map pyLowerChar
  isPrefL ("phụ lục".data) l &&
    (match l.drop ("phụ lục".data).length with
     | c :: _ => isPySpace c
     | [] => false)

/-- Closing rule B forward context: one of the next 3 paragraphs, normalised,
contains "banhànhkèm" (issued together with) or "cộnghòaxãhội" (the republic
preamble).  The source's loop breaks after the first hit, which only prevents
adding the 10 points twice, so an existence test is equivalent. -/
def nextCtxB (ps : List String) (idx : Nat) : Bool :=
  [1, 2, 3].any fun off =>
    decide (idx + off < ps.length) &&
      (let nm := normalizeVn (pyStrip (ps.getD (idx + off) ""))
       inSub "banhànhkèm" nm || inSub "cộnghòaxãhội" nm)

/-- Closing rule B backward context: one of the previous 3 paragraphs,
normalised, contains "nơinhận:" (addressee) or "ghihọtên" (signed, full name). -/
def prevCtxB (ps : List String) (idx : Nat) : Bool :=
  [1, 2, 3].any fun off =>
    decide (off ≤ idx) &&
      (let nm := normalizeVn (pyStrip (ps.getD (idx - off) ""))
       inSub "nơinhận:" nm || inSub "ghihọtên" nm)

/-- The appendix confidence score computed by closing rule B. -/
def phuLucPoints (ps : List String) (idx : Nat) : Nat :=
  40 + (if nextCtxB ps idx then 10 else 0) + (if prevCtxB ps idx then 10 else 0)

/-- Closing a segment and opening the next one, shared by both closing rules:
append the current buffer to the closed segments if its stripped content is
truthy, then open a fresh segment numbered `len(segments) + 1` with the given
initial content, recording the marker paragraph index as the new
`current_segment_start_idx`. -/
def closeOpen (st : SegState) (idx : Nat) (newContent : String) : SegState :=
  let segments := if pyStrip st.cur.content ≠ "" then st.segments ++ [st.cur] else st.segments
  { segments := segments
    cur := { docNumber := segments.length + 1, content := newContent }
    startIdx := idx }

/-- Appending a paragraph (plus trailing newline) to the current segment,
the fall-through action of the paragraph loop. -/
def appendPara (st : SegState) (para : String) : SegState :=
  { st with cur := { st.cur with content := st.cur.content ++ para ++ "\n" } }

/-- The flush performed by closing rule B before closing: append the raw
paragraphs from `current_segment_start_idx` up to the marker (stripped,
plus a newline) to the current buffer if truthy. -/
def flushPreceding (ps : List String) (st : SegState) (idx : Nat) : SegState :=
  let preceding := joinNL (pySlice ps st.startIdx idx)
  if pyStrip preceding ≠ ""
    then { st with cur := { st.cur with content := st.cur.content ++ pyStrip preceding ++ "\n" } }
    else st

/-- One iteration of the paragraph loop of `identify_and_segment_document`.
The source initialises `inside_table = False` before the loop and never
reassigns it, so it is passed in as a constant. -/
def segStep (ps : List String) (insideTable : Bool) (st : SegState) (idx : Nat) : SegState :=
  let para := pyStrip (ps.getD idx "")
  if (insideTable || (inSub "<table>" para && inSub "</table>" para)) && sigMatchB para then
    closeOpen st idx ""
  else if phuLucMatchB para then
    if 50 ≤ phuLucPoints ps idx then
      closeOpen (flushPreceding ps st idx) idx ("" ++ para ++ "\n")
    else appendPara st para
  else appendPara st para

/-- The function `identify_and_segment_document(content)` of the source. -/
def identifyAndSegmentDocument (content : String) : List Segment :=
  let paragraphs := pySplitNL content
  let insideTable := false
  let final := (List.range paragraphs.length).foldl (segStep paragraphs insideTable)
    { segments := [], cur := { docNumber := 1, content := "" }, startIdx := 0 }
  if pyStrip final.cur.content ≠ "" then final.segments ++ [final.cur] else final.segments

/-- A node of the structured JSON section tree. -/
inductive SectionNode where
  | mk (id header title content : String) (subsections : List SectionNode)

/-- Field accessor for the node id. -/
def SectionNode.id : SectionNode → String
  | .mk i _ _ _ _ => i

/-- Field accessor for the node header. -/
def SectionNode.header : SectionNode → String
  | .mk _ h _ _ _ => h

/-- Field accessor for the node title. -/
def SectionNode.title : SectionNode → String
  | .mk _ _ t _ _ => t

/-- Field accessor for the node content. -/
def SectionNode.content : SectionNode → String
  | .mk _ _ _ c _ => c

/-- Field accessor for the node subsections. -/
def SectionNode.subsections : SectionNode → List SectionNode
  | .mk _ _ _ _ subs => subs

mutual
/-- The function `find_section_by_id(section, section_id)`: exact id match,
depth-first, first hit wins. -/
def findSectionById (sec : SectionNode) (sectionId : String) : Option SectionNode :=
  match sec with
  | .mk i h t c subs =>
    if i = sectionId then some (.mk i h t c subs)
    else findListById subs sectionId
/-- The `for subsection in section['subsections']` loop of `find_section_by_id`. -/
def findListById : List SectionNode → String → Option SectionNode
  | [], _ => none
  | s :: rest, sectionId =>
    match findSectionById s sectionId with
    | some r => some r
    | none => findListById rest sectionId
end

mutual
/-- The function `find_section_by_partial_id(section, unique_marker)`:
match any node whose id ends with underscore + marker. -/
def findSectionByPartialId (sec : SectionNode) (marker : String) : Option SectionNode :=
  match sec with
  | .mk i h t c subs =>
    if endsWithB i ("_" ++ marker) then some (.mk i h t c subs)
    else findListByPartial subs marker
/-- The subsection loop of `find_section_by_partial_id`. -/
def findListByPartial : List SectionNode → String → Option SectionNode
  | [], _ => none
  | s :: rest, marker =>
    match findSectionByPartialId s marker with
    | some r => some r
    | none => findListByPartial rest marker
end

/-- Python `"    " * indent_level`. -/
def indentOf : Nat → String
  | 0 => ""
  | n + 1 => "    " ++ indentOf n

/-- Python `s.startswith(p)`. -/
def startsWithB (s p : String) : Bool := isPrefL p.data s.data

mutual
/-- The function `process_section(section, indent_level, include_full_hierarchy,
parent_headers)`: reconstructs the text of one node and its subtree. -/
def processSection (sec : SectionNode) (indentLevel : Nat) (includeFullHierarchy : Bool)
    (parentHeaders : List String) : String :=
  match sec with
  | .mk _ header title content subs =>
    let indent := indentOf indentLevel
    let text := ""
    let text :=
      if includeFullHierarchy then
        let currentHeaders := if header ≠ "" then parentHeaders ++ [header] else parentHeaders
        let fullReference := String.intercalate ", " (currentHeaders.reverse.filter (fun h => h ≠ ""))
        if fullReference ≠ "" then text ++ indent ++ fullReference ++ "\n" else text
      else
        if header ≠ "" then text ++ indent ++ header ++ "\n" else text
    let text := if title ≠ "" then text ++ indent ++ title ++ "\n" else text
    let text := if content ≠ "" then text ++ indent ++ content ++ "\n" else text
    text ++ processList subs (indentLevel + 1) includeFullHierarchy (parentHeaders ++ [header])
/-- The subsection loop of `process_section`. -/
def processList : List SectionNode → Nat → Bool → List String → String
  | [], _, _, _ => ""
  | s :: rest, lvl, fh, ph => processSection s lvl fh ph ++ processList rest lvl fh ph
end

/-- One line of the loop of `reconstruct_table`: state is the accumulated
text and the pending row cells. -/
def reconstructTableStep (indent : String) (st : String × List String) (line0 : String) :
    String × List String :=
  let line := pyStrip line0
  if line = "<table>" || line = "</table>" then
    (if line = "</table>" then (st.1 ++ "\n", st.2) else st)
  else if line = "<tr>" then (st.1, [])
  else if line = "</tr>" then (st.1 ++ indent ++ String.intercalate " | " st.2 ++ "\n", [])
  else if startsWithB line "<td>" && endsWithB line "</td>" then
    (st.1, st.2 ++ [pyStrip ⟨(line.data.drop 4).take (line.data.length - 9)⟩])
  else (st.1 ++ indent ++ line ++ "\n", st.2)

/-- The function `reconstruct_table(content, indent_level)` of the source
(defined in the source but never called by any reconstruction path). -/
def reconstructTable (content : String) (indentLevel : Nat) : String :=
  (((pySplitNL content).foldl (reconstructTableStep (indentOf indentLevel)) ("", []))).1

/-- One structured document of a structured JSON file. -/
structure StructuredDocument where
  docNumber : Nat
  docId : String
  docName : String
  articles : List SectionNode

/-- A persisted structured JSON file. -/
structure StructuredFile where
  docFilename : String
  documents : List StructuredDocument

/-- The `for document in documents` loop of `retrieve_section_text`:
documents whose `doc_id` differs from the queried prefix are skipped;
otherwise the exact search runs first and the suffix fallback second. -/
def retrieveFromDocs : List StructuredDocument → String → String → String → String
  | [], _, _, _ => ""
  | d :: rest, sectionId, docId, marker =>
    if d.docId ≠ docId then retrieveFromDocs rest sectionId docId marker
    else
      match findListById d.articles sectionId with
      | some sec => processSection sec 0 false []
      | none =>
        match findListByPartial d.articles marker with
        | some sec => processSection sec 0 false []
        | none => retrieveFromDocs rest sectionId docId marker

/-- The function `retrieve_section_text(section_id, json_file_path)`.
The file argument is `none` when the path does not exist (the
`os.path.exists` guard) and `some file` for a parsed structured file. -/
def retrieveSectionText (sectionId : String) (jsonFile : Option StructuredFile) : String :=
  match jsonFile with
  | none => ""
  | some data =>
    match data.documents with
    | [] => ""
    | _ :: _ =>
      let pm := pyPartitionUnd sectionId
      retrieveFromDocs data.documents sectionId pm.1 pm.2

/-- The file loop of `retrieve_section_text_from_folder`: first file whose
retrieval is non-empty (truthy) wins. -/
def retrieveFolderLoop : List StructuredFile → String → Option String
  | [], _ => none
  | f :: rest, sectionId =>
    let sectionText := retrieveSectionText sectionId (some f)
    if sectionText ≠ "" then some sectionText else retrieveFolderLoop rest sectionId

/-- A single-quote character (used in the not-found message the source
builds with an f-string). -/
def sq : String := String.singleton (Char.ofNat 39)

/-- The not-found sentinel message of `retrieve_section_text_from_folder`. -/
def notFoundMessage (sectionId folderPath : String) : String :=
  "Section id " ++ sq ++ sectionId ++ sq ++
    " not found in any JSON file within folder: " ++ folderPath

/-- The missing-folder sentinel message of `retrieve_section_text_from_folder`. -/
def folderNotFoundMessage (folderPath : String) : String :=
  "Folder not found: " ++ folderPath

/-- The function `retrieve_section_text_from_folder(section_id, folder_path)`:
the folder is `none` when the path does not exist, otherwise the list of
parsed structured JSON files in walk order. -/
def retrieveSectionTextFromFolder (sectionId : String) (folder : Option (List StructuredFile))
    (folderPath : String) : String :=
  match folder with
  | none => folderNotFoundMessage folderPath
  | some files =>
    match retrieveFolderLoop files sectionId with
    | some t => t
    | none => notFoundMessage sectionId folderPath

/-- One detected form record of `detect_forms_in_appendix`. -/
structure FormRec where
  formId : String
  text : String
  start : Nat
  endIdx : Option Nat
deriving DecidableEq, Repr

/-- Python `f"form_{form_counter:02d}"`. -/
def formatFormId (n : Nat) : String :=
  "form_" ++ (if n < 10 then "0" ++ toString n else toString n)

/-- Whether a paragraph contains a table boundary tag (the source tests
substring membership of either tag). -/
def tableTagIn (p : String) : Bool := inSub "<table>" p || inSub "</table>" p

/-- The per-paragraph score of `detect_forms_in_appendix` (rules 1-6 of the
source, in source order). -/
def formPoints (ps : List String) (idx : Nat) : Nat :=
  (if inSub "mẫusố" (normalizeVn (pyStrip (ps.getD idx ""))) then 40 else 0) +
  (if decide (0 < idx) && inSub "banhànhkèm" (normalizeVn (pyStrip (ps.getD (idx - 1) ""))) then 10 else 0) +
  (if decide (idx < ps.length - 1) && pyIsUpper (pyStrip (ps.getD (idx + 1) "")) then 10 else 0) +
  (if decide (0 < idx) && tableTagIn (pyStrip (ps.getD (idx - 1) "")) then 10 else 0) +
  (if decide (idx < ps.length - 1) && tableTagIn (pyStrip (ps.getD (idx + 1) "")) then 10 else 0) +
  (if decide (idx < ps.length - 1) && inSub "cộnghòaxãhội" (normalizeVn (pyStrip (ps.getD (idx + 1) ""))) then 10 else 0)

/-- Loop state of `detect_forms_in_appendix`. -/
structure FormState where
  forms : List FormRec
  counter : Nat
  startIdx : Option Nat
deriving DecidableEq, Repr

/-- Python `forms[-1]['end'] = e` (updates the last record, if any). -/
def setLastEnd : List FormRec → Nat → List FormRec
  | [], _ => []
  | [f], e => [{ f with endIdx := some e }]
  | f :: g :: rest, e => f :: setLastEnd (g :: rest) e

/-- One iteration of the paragraph loop of `detect_forms_in_appendix`. -/
def formStep (ps : List String) (st : FormState) (idx : Nat) : FormState :=
  let para := pyStrip (ps.getD idx "")
  if 50 ≤ formPoints ps idx then
    let forms := if st.startIdx ≠ none then setLastEnd st.forms idx else st.forms
    { forms := forms ++
        [{ formId := formatFormId st.counter, text := para, start := idx, endIdx := none }]
      counter := st.counter + 1
      startIdx := some idx }
  else st

/-- The function `detect_forms_in_appendix(segment_text)`. -/
def detectFormsInAppendix (segmentText : String) : List FormRec :=
  let paragraphs := pySplitNL segmentText
  let final := (List.range paragraphs.length).foldl (formStep paragraphs)
    { forms := [], counter := 1, startIdx := none }
  match final.forms.getLast? with
  | some f => if f.endIdx = none then setLastEnd final.forms paragraphs.length else final.forms
  | none => final.forms

/-- The stripped contents and titles collected from the (already cleaned)
subsections by `clean_redundant_content`, in order: for each subsection its
truthy content then its truthy title. -/
def gatherLows : List SectionNode → List String
  | [] => []
  | s :: rest =>
    (if s.content ≠ "" then [pyStrip s.content] else []) ++
    (if s.title ≠ "" then [pyStrip s.title] else []) ++ gatherLows rest

/-- One iteration of the deduplication loop of `clean_redundant_content`:
`current_content = current_content.replace(lower_content.strip(), "").strip()`. -/
def cleanStep (c t : String) : String := pyStrip (pyEraseAll c (pyStrip t))

mutual
/-- The per-node body of `clean_redundant_content`: clean the subsections
first, then strip every subsection content/title out of the own content. -/
def cleanSection : SectionNode → SectionNode
  | .mk i h t c subs =>
    if subs.isEmpty then .mk i h t c subs
    else
      let cleanedSubs := cleanList subs
      let lows := gatherLows cleanedSubs
      let c2 := if c ≠ "" then lows.foldl cleanStep c else c
      .mk i h t c2 cleanedSubs
/-- The `for section in sections` loop of `clean_redundant_content`. -/
def cleanList : List SectionNode → List SectionNode
  | [] => []
  | s :: rest => cleanSection s :: cleanList rest
end

/-- The function `clean_redundant_content(sections)`. -/
def cleanRedundantContent (sections : List SectionNode) : List SectionNode :=
  cleanList sections

mutual
/-- Separation condition on a (cleaned) tree: the node's content no longer
contains any of its subsections' stripped contents or titles as a substring
(non-empty ones), and the same holds recursively below. -/
def sepNode : SectionNode → Bool
  | .mk _ _ _ c subs =>
    sepList subs &&
      (if subs.isEmpty then true
       else if c ≠ "" then
         (gatherLows subs).all fun t => decide (pyStrip t = "") || !inSub (pyStrip t) c
       else true)
/-- Separation condition on a forest of section nodes. -/
def sepList : List SectionNode → Bool
  | [] => true
  | s :: rest => sepNode s && sepList rest
end

/-- Whether the search of `retrieve_section_text` can find nothing in a
file: every document either carries a `doc_id` different from the queried
prefix, or contains neither a node with the exact id nor a node with the
underscore-marker suffix. -/
def sectionAbsentB (sectionId : String) (file : StructuredFile) : Bool :=
  let pm := pyPartitionUnd sectionId
  file.documents.all fun d =>
    !(decide (d.docId = pm.1)) ||
      ((findListById d.articles sectionId).isNone && (findListByPartial d.articles pm.2).isNone)

/-- Concatenation of a list of strings (no separator). -/
def joinAll : List String → String
  | [] => ""
  | s :: rest => s ++ joinAll rest

/-- Concatenation of every piece of segment content held by a segmenter
loop state: the closed segments in order, then the open buffer. -/
def segContentsConcat (st : SegState) : String :=
  joinAll (st.segments.map Segment.content) ++ st.cur.content

/-- The paragraph indices below `k` whose form score reaches the
threshold 50. -/
def formStarts (ps : List String) (k : Nat) : List Nat :=
  (List.range k).filter fun i => 50 ≤ formPoints ps i

/-- The chain of form records corresponding to a list of start indices,
with every record closed at the next start and the last record still open
(`end = None`), numbered consecutively from `counter`. -/
def buildOpen (ps : List String) : List Nat → Nat → List FormRec
  | [], _ => []
  | [s], counter =>
      [{ formId := formatFormId counter, text := pyStrip (ps.getD s ""), start := s,
         endIdx := none }]
  | s :: s2 :: rest, counter =>
      { formId := formatFormId counter, text := pyStrip (ps.getD s ""), start := s,
        endIdx := some s2 } :: buildOpen ps (s2 :: rest) (counter + 1)

/-- Loop invariant of `detect_forms_in_appendix` after scanning the first
`k` paragraphs: the accumulated records are the open chain over the
threshold-reaching indices, the counter is one past the number of records,
and `start_idx` remembers the last opened start (if any). -/
def FormInv (ps : List String) (k : Nat) (st : FormState) : Prop :=
  st.forms = buildOpen ps (formStarts ps k) 1
  ∧ st.counter = (formStarts ps k).length + 1
  ∧ st.startIdx = (formStarts ps k).getLast?

/-- Numbering invariant of the segmenter loop state: the closed segments
carry numbers 1..k in order and the open buffer carries number k + 1. -/
def SegNumInv (st : SegState) : Prop :=
  st.segments.map Segment.docNumber = List.range' 1 st.segments.length ∧
  st.cur.docNumber = st.segments.length + 1

/-!
General helper lemmas.
-/

theorem foldl_preserves {α β : Type} (P : α → Prop) (f : α → β → α)
    (hf : ∀ a b, P a → P (f a b)) : ∀ (l : List β) (a : α), P a → P (l.foldl f a) := by
  intro l
  induction l with
  | nil => intro a h; exact h
  | cons b bs ih => intro a h; exact ih (f a b) (hf a b h)

/-!
Claim C2: the numbering invariant of the segmenter.
-/

theorem segNumInv_init : SegNumInv { segments := [], cur := { docNumber := 1, content := "" }, startIdx := 0 } :=
  ⟨rfl, rfl⟩

theorem segments_concat_numbering {segs : List Segment} {cur : Segment}
    (h1 : segs.map Segment.docNumber = List.range' 1 segs.length)
    (h2 : cur.docNumber = segs.length + 1) :
    (segs ++ [cur]).map Segment.docNumber = List.range' 1 (segs ++ [cur]).length := by
  simp [h1, h2, List.range'_concat, Nat.add_comm]

theorem closeOpen_numInv (st : SegState) (idx : Nat) (c : String)
    (h : SegNumInv st) : SegNumInv (closeOpen st idx c) := by
  obtain ⟨h1, h2⟩ := h
  have key : ∀ segs : List Segment,
      segs.map Segment.docNumber = List.range' 1 segs.length →
      SegNumInv { segments := segs, cur := { docNumber := segs.length + 1, content := c },
                  startIdx := idx } :=
    fun segs hs => ⟨hs, rfl⟩
  unfold closeOpen
  by_cases hc : pyStrip st.cur.content ≠ ""
  · simp only [if_pos hc]
    exact key _ (segments_concat_numbering h1 h2)
  · simp only [if_neg hc]
    exact key _ h1

theorem appendPara_numInv (st : SegState) (para : String)
    (h : SegNumInv st) : SegNumInv (appendPara st para) := h

theorem flushPreceding_numInv (ps : List String) (st : SegState) (idx : Nat)
    (h : SegNumInv st) : SegNumInv (flushPreceding ps st idx) := by
  unfold flushPreceding
  by_cases hc : pyStrip (joinNL (pySlice ps st.startIdx idx)) ≠ ""
  · simpa only [if_pos hc] using h
  · simpa only [if_neg hc] using h

theorem segStep_numInv (ps : List String) (it : Bool) (st : SegState) (idx : Nat)
    (h : SegNumInv st) : SegNumInv (segStep ps it st idx) := by
  simp only [segStep]
  split
  · exact closeOpen_numInv _ _ _ h
  · split
    · split
      · exact closeOpen_numInv _ _ _ (flushPreceding_numInv _ _ _ h)
      · exact appendPara_numInv _ _ h
    · exact appendPara_numInv _ _ h

/-- Claim C2 (confirmed): for every input text, the `doc_number` values of
the segments returned by `identify_and_segment_document` are exactly
1, 2, ..., N in list order (no gaps, no repeats), N being the number of
segments returned — also across runs in which an empty buffer is discarded
at a closing rule. -/
theorem C2_segment_numbering_invariant (content : String) :
    (identifyAndSegmentDocument content).map Segment.docNumber
      = List.range' 1 (identifyAndSegmentDocument content).length := by
  unfold identifyAndSegmentDocument
  have hinv := foldl_preserves SegNumInv
    (segStep (pySplitNL content) false)
    (fun a b h => segStep_numInv (pySplitNL content) false a b h)
    (List.range (pySplitNL content).length)
    { segments := [], cur := { docNumber := 1, content := "" }, startIdx := 0 }
    segNumInv_init
  set final := (List.range (pySplitNL content).length).foldl
    (segStep (pySplitNL content) false)
    { segments := [], cur := { docNumber := 1, content := "" }, startIdx := 0 } with hfinal
  obtain ⟨h1, h2⟩ := hinv
  by_cases hc : pyStrip final.cur.content ≠ ""
  · simp only [if_pos hc]
    exact segments_concat_numbering h1 h2
  · simp only [if_neg hc]
    exact h1

/-!
Claim C1: the suffix fallback of `retrieve_section_text` across a changed
document-id prefix.  The code skips every document whose `doc_id` differs
from the prefix of the queried section id before the fallback loop can run,
so the lookup returns the empty string even though the file contains a node
whose id ends with the queried marker suffix.
-/

/-- Claim C1 (code_bug): evaluating the code at the failing input.  The file
contains exactly one document, with `doc_id = "DOC2"`, holding a node with
id `"DOC2_art003"`; that node is found by the suffix matcher
`find_section_by_partial_id` for marker `"art003"` (second conjunct), yet
`retrieve_section_text("DOC1_art003", file)` returns `""` (first conjunct)
because the document is skipped — the claimed suffix-fallback hit never
happens. -/
theorem C1_lookup_misses_despite_suffix_node :
    retrieveSectionText "DOC1_art003"
        (some { docFilename := "f.json"
                documents := [{ docNumber := 1, docId := "DOC2", docName := "Tên"
                                articles := [.mk "DOC2_art003" "Điều 3." "" "Nội dung ba" []] }] })
      = ""
    ∧ findSectionByPartialId (.mk "DOC2_art003" "Điều 3." "" "Nội dung ba" []) "art003"
      = some (.mk "DOC2_art003" "Điều 3." "" "Nội dung ba" []) :=
  ⟨rfl, rfl⟩

/-!
Claim C3: the boundary flush of closing rule B.  Every paragraph is already
appended incrementally as it is scanned, and the flush at a rule B boundary
appends the whole span since the segment start a second time.
-/

/-- Claim C3 (code_bug): evaluating the code at the failing input.  Closing
rule B fires on "Phụ lục I" (score 40 + 10 for the following "Ban hành kèm
theo..." paragraph); the closed first segment contains the paragraph "A"
twice — once from the incremental append and once from the boundary flush —
contradicting the claim that each paragraph appears exactly once.  The newly
opened segment does begin with the marker paragraph. -/
theorem C3_boundary_flush_duplicates :
    identifyAndSegmentDocument "A\nPhụ lục I\nBan hành kèm theo Thông tư X"
      = [{ docNumber := 1, content := "A\nA\n" },
         { docNumber := 2, content := "Phụ lục I\nBan hành kèm theo Thông tư X\n" }] := by
  decide

/-!
Claim C4: false-positive appendix suppression.  The score does stay at 40
without supporting context, but the claim quantifies over every input, and a
paragraph can match the "Phụ lục" pattern while also being a table-tagged
signature-block paragraph, in which case closing rule A splits the document
at that very paragraph (and drops it) before the appendix scoring is reached.
-/

/-- Claim C4 counterexample: the paragraph at index 1 matches the appendix
pattern and has no supporting context within plus or minus 3 paragraphs
(first three conjuncts), yet `identify_and_segment_document` closes the
current segment at it and starts a new one (it returns two segments and the
paragraph is dropped), because the paragraph also carries a table-tagged
signature block and closing rule A fires first. -/
theorem C4_counterexample :
    phuLucMatchB (pyStrip "Phụ lục I <table>Nơi nhận: a Lưu: b</table>") = true
    ∧ nextCtxB (pySplitNL "x\nPhụ lục I <table>Nơi nhận: a Lưu: b</table>\ny") 1 = false
    ∧ prevCtxB (pySplitNL "x\nPhụ lục I <table>Nơi nhận: a Lưu: b</table>\ny") 1 = false
    ∧ identifyAndSegmentDocument "x\nPhụ lục I <table>Nơi nhận: a Lưu: b</table>\ny"
      = [{ docNumber := 1, content := "x\n" }, { docNumber := 2, content := "y\n" }] := by
  refine ⟨rfl, rfl, rfl, ?_⟩
  decide

/-!
Claim C5: idempotence of `clean_redundant_content`.  Removal is implemented
with `str.replace(sub, "")`, which can create a fresh occurrence of `sub`
by gluing together the pieces around a removed occurrence, so a second
application can remove more.
-/

/-- Claim C5 counterexample: the parent content "aabb" with one subsection
content "ab" cleans to "ab" after one application (replace removes the
middle occurrence and glues a new one) and to "" after two, so applying
`clean_redundant_content` twice differs from applying it once. -/
theorem C5_counterexample :
    (cleanRedundantContent (cleanRedundantContent
        [.mk "p" "" "" "aabb" [.mk "c" "" "" "ab" []]])).map SectionNode.content = [""]
    ∧ (cleanRedundantContent
        [.mk "p" "" "" "aabb" [.mk "c" "" "" "ab" []]]).map SectionNode.content = ["ab"]
    ∧ ("" : String) ≠ "ab" :=
  ⟨rfl, rfl, by decide⟩

/-!
Claim C6: table rendering during reconstruction.  `process_section` emits a
node's content verbatim; it never calls `reconstruct_table`, which is defined
in the source but unused, so table tags survive into reconstructed text.
-/

/-- Claim C6 counterexample: a node whose content is a tagged table is
reconstructed by `process_section` with all tags intact (first and second
conjuncts — the output still contains `<table>`), not as the pipe-delimited
line; the standalone `reconstruct_table` would have produced the
pipe-delimited rendering (third conjunct), but no reconstruction path calls
it. -/
theorem C6_counterexample :
    processSection (.mk "D_art001" "" "" "<table>\n<tr>\n<td>a</td>\n<td>b</td>\n</tr>\n</table>" []) 0 false []
      = "<table>\n<tr>\n<td>a</td>\n<td>b</td>\n</tr>\n</table>\n"
    ∧ inSub "<table>" (processSection (.mk "D_art001" "" "" "<table>\n<tr>\n<td>a</td>\n<td>b</td>\n</tr>\n</table>" []) 0 false []) = true
    ∧ reconstructTable "<table>\n<tr>\n<td>a</td>\n<td>b</td>\n</tr>\n</table>" 0 = "a | b\n\n" :=
  ⟨rfl, rfl, rfl⟩

/-!
Claim C8: closing rule A for ordinary paragraphs.  The `inside_table` flag is
initialised to `False` and never reassigned, so the rule is only ever tested
on paragraphs that contain both `<table>` and `</table>` themselves; an
ordinary signature-block paragraph never closes a segment.
-/

/-- Claim C8 counterexample: the first paragraph matches the case-insensitive
signature pattern (first conjunct) but carries no table tags, and
`identify_and_segment_document` neither closes the segment at it nor starts
a new one — the whole input stays one segment with the signature paragraph
in its content. -/
theorem C8_counterexample :
    sigMatchB (pyStrip "Nơi nhận: các đơn vị Lưu: VT") = true
    ∧ identifyAndSegmentDocument "Nơi nhận: các đơn vị Lưu: VT\nx"
      = [{ docNumber := 1, content := "Nơi nhận: các đơn vị Lưu: VT\nx\n" }] := by
  refine ⟨rfl, ?_⟩
  decide

/-!
Claim C10: dropping of the rule A paragraph.  At the step itself the
paragraph is indeed appended to neither segment, but the new segment's
`current_segment_start_idx` is set to the signature paragraph's own index,
so a later rule B flush in the same segment re-captures the raw span
beginning at that paragraph and re-introduces it into the closed content.
-/

/-- Claim C10 counterexample: closing rule A fires on the table-tagged
signature paragraph at index 0 (first two conjuncts) and drops it at that
step, but closing rule B later fires on "Phụ lục I" and its flush re-captures
paragraphs 0..1, so the dropped signature paragraph re-appears in the first
returned segment — the concatenation of the returned contents does NOT omit
it (last conjunct). -/
theorem C10_counterexample :
    (inSub "<table>" (pyStrip "<table>Nơi nhận: a Lưu: b</table>")
       && inSub "</table>" (pyStrip "<table>Nơi nhận: a Lưu: b</table>")) = true
    ∧ sigMatchB (pyStrip "<table>Nơi nhận: a Lưu: b</table>") = true
    ∧ identifyAndSegmentDocument "<table>Nơi nhận: a Lưu: b</table>\nx\nPhụ lục I\nBan hành kèm theo Thông tư Y"
      = [{ docNumber := 1, content := "x\n<table>Nơi nhận: a Lưu: b</table>\nx\n" },
         { docNumber := 2, content := "Phụ lục I\nBan hành kèm theo Thông tư Y\n" }]
    ∧ inSub "<table>Nơi nhận: a Lưu: b</table>"
        ("x\n<table>Nơi nhận: a Lưu: b</table>\nx\n" ++ "Phụ lục I\nBan hành kèm theo Thông tư Y\n") = true := by
  refine ⟨rfl, rfl, ?_, rfl⟩
  decide

/-!
Substring and concatenation helper lemmas.
-/

theorem isPrefL_self_append : ∀ (t b : List Char), isPrefL t (t ++ b) = true := by
  intro t b
  induction t with
  | nil => rfl
  | cons c cs ih => simp [isPrefL, ih]

theorem inSubL_of_isPrefL {t hay : List Char} (h : isPrefL t hay = true) : inSubL t hay = true := by
  cases hay with
  | nil => simpa [inSubL] using h
  | cons c rest => simp [inSubL, h]

theorem inSubL_mid : ∀ (a t b : List Char), inSubL t (a ++ (t ++ b)) = true := by
  intro a t b
  induction a with
  | nil => exact inSubL_of_isPrefL (isPrefL_self_append t b)
  | cons c as ih => simp [inSubL, ih]

theorem inSubL_mid4 (a x y z b : List Char) :
    inSubL (x ++ (y ++ z)) (a ++ (x ++ (y ++ (z ++ b)))) = true := by
  have h := inSubL_mid a (x ++ (y ++ z)) b
  simpa [List.append_assoc] using h

theorem joinAll_concat (xs : List String) (c : String) :
    joinAll (xs ++ [c]) = joinAll xs ++ c := by
  induction xs with
  | nil => simp [joinAll]
  | cons x xs ih => simp [joinAll, ih, String.append_assoc]

/-!
Claim C9: lookup misses are sentinels, not exceptions.
-/

theorem retrieveFromDocs_empty (sectionId docId marker : String) :
    ∀ docs : List StructuredDocument,
      (∀ d ∈ docs,
        (!(decide (d.docId = docId)) ||
          ((findListById d.articles sectionId).isNone &&
           (findListByPartial d.articles marker).isNone)) = true) →
      retrieveFromDocs docs sectionId docId marker = "" := by
  intro docs
  induction docs with
  | nil => intro _; rfl
  | cons d rest ih =>
    intro h
    have hd := h d (List.mem_cons_self _ _)
    unfold retrieveFromDocs
    by_cases hne : d.docId ≠ docId
    · simp only [if_pos hne]
      exact ih fun x hx => h x (List.mem_cons_of_mem _ hx)
    · simp only [if_neg hne]
      push_neg at hne
      simp only [hne, decide_True, Bool.not_true, Bool.false_or, Bool.and_eq_true,
        Option.isNone_iff_eq_none] at hd
      simp only [hd.1, hd.2]
      exact ih fun x hx => h x (List.mem_cons_of_mem _ hx)

theorem retrieveFolderLoop_none (sectionId : String) :
    ∀ files : List StructuredFile,
      (∀ f ∈ files, retrieveSectionText sectionId (some f) = "") →
      retrieveFolderLoop files sectionId = none := by
  intro files
  induction files with
  | nil => intro _; rfl
  | cons f rest ih =>
    intro h
    have hf := h f (List.mem_cons_self _ _)
    unfold retrieveFolderLoop
    simp only [hf, ne_eq, not_true_eq_false, if_false, ite_false]
    exact ih fun x hx => h x (List.mem_cons_of_mem _ hx)

/-- Claim C9 (confirmed): a lookup miss is never an exception.
`retrieve_section_text` returns the empty string when the file does not
exist (first conjunct) and when the section is absent from the file — no
document with the queried prefix holds an exact-id or marker-suffix node
(second conjunct); and `retrieve_section_text_from_folder` returns the
not-found message when no JSON file of the folder yields a match (third
conjunct). -/
theorem C9_lookup_miss_not_exception :
    (∀ sectionId : String, retrieveSectionText sectionId none = "")
    ∧ (∀ (sectionId : String) (file : StructuredFile),
        sectionAbsentB sectionId file = true →
        retrieveSectionText sectionId (some file) = "")
    ∧ (∀ (sectionId folderPath : String) (files : List StructuredFile),
        (∀ f ∈ files, retrieveSectionText sectionId (some f) = "") →
        retrieveSectionTextFromFolder sectionId (some files) folderPath
          = notFoundMessage sectionId folderPath) := by
  refine ⟨fun _ => rfl, ?_, ?_⟩
  · intro sectionId file habs
    simp only [sectionAbsentB, List.all_eq_true] at habs
    simp only [retrieveSectionText]
    cases hdocs : file.documents with
    | nil => rfl
    | cons d rest =>
      rw [hdocs] at habs
      exact retrieveFromDocs_empty sectionId (pyPartitionUnd sectionId).1
        (pyPartitionUnd sectionId).2 (d :: rest) habs
  · intro sectionId folderPath files h
    simp only [retrieveSectionTextFromFolder]
    rw [retrieveFolderLoop_none sectionId files h]

/-- Witness for C9: a concrete missing id ("DOC9_art001" while the only node
is "DOC9_art002") against a concrete file and a one-file folder. -/
theorem C9_witness :
    retrieveSectionText "DOC9_art001"
        (some { docFilename := "g.json"
                documents := [{ docNumber := 1, docId := "DOC9", docName := "n"
                                articles := [.mk "DOC9_art002" "" "" "c" []] }] }) = ""
    ∧ retrieveSectionTextFromFolder "DOC9_art001"
        (some [{ docFilename := "g.json"
                 documents := [{ docNumber := 1, docId := "DOC9", docName := "n"
                                 articles := [.mk "DOC9_art002" "" "" "c" []] }] }]) "corpus"
      = notFoundMessage "DOC9_art001" "corpus" := by
  obtain ⟨w1, w2, w3⟩ := C9_lookup_miss_not_exception
  constructor
  · exact w2 "DOC9_art001" _ (by decide)
  · refine w3 "DOC9_art001" "corpus" _ ?_
    intro f hf
    simp only [List.mem_singleton] at hf
    subst hf
    decide

/-!
Amended claims for C4, C8 and C10 (step-level characterisations of the
paragraph loop of `identify_and_segment_document`).
-/

theorem segStep_rule_A (ps : List String) (st : SegState) (idx : Nat)
    (htags : (inSub "<table>" (pyStrip (ps.getD idx ""))
        && inSub "</table>" (pyStrip (ps.getD idx ""))) = true)
    (hsig : sigMatchB (pyStrip (ps.getD idx "")) = true) :
    segStep ps false st idx = closeOpen st idx "" := by
  simp only [segStep, Bool.false_or, htags, hsig, Bool.and_self, if_true]

/-- Claim C8 amended (corrected): closing rule A fires only on table-tagged
paragraphs.  For every paragraph that contains both `<table>` and `</table>`
and matches the case-insensitive signature pattern, the loop closes the
current segment at that paragraph (appending the buffer to the closed
segments exactly when its stripped content is non-empty) and starts a fresh
empty segment immediately after; an ordinary matching paragraph never does
(the corresponding counterexample shows a single unsplit segment), because
`inside_table` is initialised `False` and never reassigned. -/
theorem C8_amended_table_tagged_signature_closes (ps : List String) (st : SegState) (idx : Nat)
    (htags : (inSub "<table>" (pyStrip (ps.getD idx ""))
        && inSub "</table>" (pyStrip (ps.getD idx ""))) = true)
    (hsig : sigMatchB (pyStrip (ps.getD idx "")) = true) :
    segStep ps false st idx = closeOpen st idx ""
    ∧ (segStep ps false st idx).segments
      = (if pyStrip st.cur.content ≠ "" then st.segments ++ [st.cur] else st.segments)
    ∧ (segStep ps false st idx).cur
      = { docNumber :=
            (if pyStrip st.cur.content ≠ "" then st.segments ++ [st.cur] else st.segments).length + 1
          content := "" } := by
  have hstep := segStep_rule_A ps st idx htags hsig
  exact ⟨hstep, by rw [hstep]; rfl, by rw [hstep]; rfl⟩

/-- Witness for the amended C8 at a concrete table-tagged signature
paragraph and a concrete state. -/
theorem C8_amended_witness :
    segStep ["<table>Nơi nhận: a Lưu: b</table>", "x"] false
        { segments := [], cur := { docNumber := 1, content := "y\n" }, startIdx := 0 } 0
      = closeOpen { segments := [], cur := { docNumber := 1, content := "y\n" }, startIdx := 0 } 0 ""
    ∧ (segStep ["<table>Nơi nhận: a Lưu: b</table>", "x"] false
        { segments := [], cur := { docNumber := 1, content := "y\n" }, startIdx := 0 } 0).segments
      = (if pyStrip ({ docNumber := 1, content := "y\n" } : Segment).content ≠ ""
          then [] ++ [{ docNumber := 1, content := "y\n" }] else [])
    ∧ (segStep ["<table>Nơi nhận: a Lưu: b</table>", "x"] false
        { segments := [], cur := { docNumber := 1, content := "y\n" }, startIdx := 0 } 0).cur
      = { docNumber :=
            (if pyStrip ({ docNumber := 1, content := "y\n" } : Segment).content ≠ ""
              then [] ++ [{ docNumber := 1, content := "y\n" }] else ([] : List Segment)).length + 1
          content := "" } :=
  C8_amended_table_tagged_signature_closes _ _ 0 (by decide) (by decide)

/-- Claim C10 amended (corrected): when closing rule A fires, the signature
paragraph is appended to neither the closing nor the newly opened segment at
that step — the concatenation of all content held by the state is unchanged
and the new buffer is empty.  However the new segment's start index is set
to the signature paragraph's own index (third conjunct), so a later rule B
flush in the same segment re-captures the raw span beginning at that
paragraph and re-introduces it into the returned contents; only in the
absence of such a flush does the output omit the paragraph. -/
theorem C10_amended_rule_A_paragraph_dropped (ps : List String) (st : SegState) (idx : Nat)
    (htags : (inSub "<table>" (pyStrip (ps.getD idx ""))
        && inSub "</table>" (pyStrip (ps.getD idx ""))) = true)
    (hsig : sigMatchB (pyStrip (ps.getD idx "")) = true)
    (hbuf : pyStrip st.cur.content ≠ "") :
    segContentsConcat (segStep ps false st idx) = segContentsConcat st
    ∧ (segStep ps false st idx).cur.content = ""
    ∧ (segStep ps false st idx).startIdx = idx := by
  have hstep := segStep_rule_A ps st idx htags hsig
  rw [hstep]
  unfold closeOpen
  simp only [if_pos hbuf]
  refine ⟨?_, ?_, ?_⟩
  · simp [segContentsConcat, joinAll_concat]
  · trivial
  · trivial

/-- Witness for the amended C10 at a concrete paragraph and state. -/
theorem C10_amended_witness :
    segContentsConcat (segStep ["<table>Nơi nhận: a Lưu: b</table>"] false
        { segments := [], cur := { docNumber := 1, content := "x\n" }, startIdx := 0 } 0)
      = segContentsConcat { segments := [], cur := { docNumber := 1, content := "x\n" }, startIdx := 0 }
    ∧ (segStep ["<table>Nơi nhận: a Lưu: b</table>"] false
        { segments := [], cur := { docNumber := 1, content := "x\n" }, startIdx := 0 } 0).cur.content = ""
    ∧ (segStep ["<table>Nơi nhận: a Lưu: b</table>"] false
        { segments := [], cur := { docNumber := 1, content := "x\n" }, startIdx := 0 } 0).startIdx = 0 :=
  C10_amended_rule_A_paragraph_dropped _ _ 0 (by decide) (by decide) (by decide)

/-- Claim C4 amended (corrected): when a paragraph matches the appendix
pattern, has no supporting forward or backward context within 3 paragraphs,
and is not itself a table-tagged signature-block paragraph (closing rule A —
the extra hypothesis the counterexample forces), the appendix score stays at
40 (< 50) and the loop appends the paragraph to the current segment as
ordinary content: no segment is closed and none is opened at that
paragraph. -/
theorem C4_amended_no_new_segment (ps : List String) (st : SegState) (idx : Nat)
    (hm : phuLucMatchB (pyStrip (ps.getD idx "")) = true)
    (hn : nextCtxB ps idx = false)
    (hp : prevCtxB ps idx = false)
    (hA : ((inSub "<table>" (pyStrip (ps.getD idx ""))
        && inSub "</table>" (pyStrip (ps.getD idx ""))) && sigMatchB (pyStrip (ps.getD idx ""))) = false) :
    phuLucPoints ps idx = 40
    ∧ segStep ps false st idx = appendPara st (pyStrip (ps.getD idx "")) := by
  have hpts : phuLucPoints ps idx = 40 := by simp [phuLucPoints, hn, hp]
  refine ⟨hpts, ?_⟩
  simp only [segStep, Bool.false_or, hA, hm, hpts, if_true]
  simp

/-- Witness for the amended C4: "Phụ lục I ..." inside plain prose with an
unrelated neighbour paragraph. -/
theorem C4_amended_witness :
    phuLucPoints ["Phụ lục I nêu trong văn bản", "x"] 0 = 40
    ∧ segStep ["Phụ lục I nêu trong văn bản", "x"] false
        { segments := [], cur := { docNumber := 1, content := "" }, startIdx := 0 } 0
      = appendPara { segments := [], cur := { docNumber := 1, content := "" }, startIdx := 0 }
          (pyStrip (["Phụ lục I nêu trong văn bản", "x"].getD 0 "")) :=
  C4_amended_no_new_segment _ _ 0 (by decide) (by decide) (by decide) (by decide)

/-!
Amended claim for C6: `process_section` renders content verbatim.
-/

/-- Claim C6 amended (corrected): `process_section` emits every node's
non-empty content verbatim — the indented block `indent ++ content ++ "\n"`
occurs as a substring of its output — so table-tagged blocks inside content
reach the reconstructed text unconverted (tags intact); the row-to-pipe
conversion exists only in the never-invoked `reconstruct_table`. -/
theorem C6_amended_content_verbatim (sec : SectionNode) (lvl : Nat) (fh : Bool)
    (ph : List String) (h : sec.content ≠ "") :
    inSub (indentOf lvl ++ sec.content ++ "\n") (processSection sec lvl fh ph) = true := by
  obtain ⟨i, hd, t, c, subs⟩ := sec
  simp only [SectionNode.content] at h
  simp only [processSection, SectionNode.content]
  simp only [if_pos h]
  simp only [inSub, String.data_append, List.append_assoc]
  exact inSubL_mid4 _ _ _ _ _

/-- Witness for the amended C6: a node whose content is a table-opening tag
line. -/
theorem C6_amended_witness :
    inSub (indentOf 0 ++ (SectionNode.mk "i" "" "" "<table>" []).content ++ "\n")
      (processSection (.mk "i" "" "" "<table>" []) 0 false []) = true :=
  C6_amended_content_verbatim (.mk "i" "" "" "<table>" []) 0 false [] (by decide)

/-!
Claim C7: the record structure of `detect_forms_in_appendix`.
-/

theorem setLastEnd_cons (f : FormRec) (l : List FormRec) (e : Nat) (h : l ≠ []) :
    setLastEnd (f :: l) e = f :: setLastEnd l e := by
  cases l with
  | nil => exact absurd rfl h
  | cons g rest => rfl

theorem buildOpen_ne_nil (ps : List String) (S : List Nat) (c : Nat) (h : S ≠ []) :
    buildOpen ps S c ≠ [] := by
  cases S with
  | nil => exact absurd rfl h
  | cons s rest => cases rest <;> simp [buildOpen]

theorem setLastEnd_map_start : ∀ (fs : List FormRec) (e : Nat),
    (setLastEnd fs e).map FormRec.start = fs.map FormRec.start
  | [], _ => rfl
  | [_], _ => rfl
  | f :: g :: rest, e => by
      simp only [setLastEnd, List.map_cons, setLastEnd_map_start (g :: rest) e]

theorem setLastEnd_map_endIdx : ∀ (fs : List FormRec) (e : Nat), fs ≠ [] →
    (setLastEnd fs e).map FormRec.endIdx = (fs.map FormRec.endIdx).dropLast ++ [some e]
  | [], _, h => absurd rfl h
  | [_], _, _ => rfl
  | f :: g :: rest, e, _ => by
      have ih := setLastEnd_map_endIdx (g :: rest) e (by simp)
      simp only [setLastEnd, List.map_cons] at ih ⊢
      rw [ih, List.dropLast_cons₂, List.cons_append]

theorem buildOpen_map_start (ps : List String) : ∀ (S : List Nat) (c : Nat),
    (buildOpen ps S c).map FormRec.start = S
  | [], _ => rfl
  | [_], _ => rfl
  | s :: s2 :: rest, c => by
      simp only [buildOpen, List.map_cons, buildOpen_map_start ps (s2 :: rest) (c + 1)]

theorem buildOpen_map_endIdx (ps : List String) : ∀ (S : List Nat) (c : Nat), S ≠ [] →
    (buildOpen ps S c).map FormRec.endIdx = S.tail.map some ++ [none]
  | [], _, h => absurd rfl h
  | [_], _, _ => rfl
  | s :: s2 :: rest, c, _ => by
      have ih := buildOpen_map_endIdx ps (s2 :: rest) (c + 1) (by simp)
      simp only [buildOpen, List.map_cons, ih, List.tail_cons]
      simp

theorem buildOpen_getLast_endIdx (ps : List String) : ∀ (S : List Nat) (c : Nat), S ≠ [] →
    ∃ f, (buildOpen ps S c).getLast? = some f ∧ f.endIdx = none
  | [], _, h => absurd rfl h
  | [s], c, _ => ⟨_, rfl, rfl⟩
  | s :: s2 :: rest, c, _ => by
      cases rest with
      | nil => exact ⟨_, rfl, rfl⟩
      | cons s3 rest2 =>
          obtain ⟨f, hf, he⟩ := buildOpen_getLast_endIdx ps (s2 :: s3 :: rest2) (c + 1) (by simp)
          exact ⟨f, by rw [← hf]; rfl, he⟩

theorem buildOpen_snoc (ps : List String) : ∀ (S : List Nat) (c e : Nat), S ≠ [] →
    setLastEnd (buildOpen ps S c) e
        ++ [{ formId := formatFormId (c + S.length), text := pyStrip (ps.getD e ""),
              start := e, endIdx := none }]
      = buildOpen ps (S ++ [e]) c
  | [], _, _, h => absurd rfl h
  | [s], c, e, _ => by simp [buildOpen, setLastEnd]
  | s :: s2 :: rest, c, e, _ => by
      have ih := buildOpen_snoc ps (s2 :: rest) (c + 1) e (by simp)
      have harith : c + 1 + (s2 :: rest).length = c + (s :: s2 :: rest).length := by
        simp only [List.length_cons]
        omega
      rw [harith] at ih
      rw [show buildOpen ps (s :: s2 :: rest) c
            = { formId := formatFormId c, text := pyStrip (ps.getD s ""), start := s,
                endIdx := some s2 } :: buildOpen ps (s2 :: rest) (c + 1) from rfl]
      rw [setLastEnd_cons _ _ _ (buildOpen_ne_nil ps _ _ (by simp))]
      rw [List.cons_append, ih]
      rfl

theorem formStarts_succ_fire (ps : List String) (k : Nat) (h : 50 ≤ formPoints ps k) :
    formStarts ps (k + 1) = formStarts ps k ++ [k] := by
  simp [formStarts, List.range_succ, List.filter_append, h]

theorem formStarts_succ_nofire (ps : List String) (k : Nat) (h : ¬ 50 ≤ formPoints ps k) :
    formStarts ps (k + 1) = formStarts ps k := by
  simp [formStarts, List.range_succ, List.filter_append, h]

theorem formStep_inv (ps : List String) (k : Nat) (st : FormState)
    (h : FormInv ps k st) : FormInv ps (k + 1) (formStep ps st k) := by
  obtain ⟨h1, h2, h3⟩ := h
  by_cases hfire : 50 ≤ formPoints ps k
  · have hstep : formStep ps st k
        = { forms := (if st.startIdx ≠ none then setLastEnd st.forms k else st.forms)
              ++ [{ formId := formatFormId st.counter, text := pyStrip (ps.getD k ""),
                    start := k, endIdx := none }]
            counter := st.counter + 1
            startIdx := some k } := by
      simp only [formStep, if_pos hfire]
    have hS := formStarts_succ_fire ps k hfire
    rw [hstep]
    refine ⟨?_, ?_, ?_⟩
    · show (if st.startIdx ≠ none then setLastEnd st.forms k else st.forms)
          ++ [{ formId := formatFormId st.counter, text := pyStrip (ps.getD k ""),
                start := k, endIdx := none }]
        = buildOpen ps (formStarts ps (k + 1)) 1
      rw [hS]
      by_cases hnil : formStarts ps k = []
      · have hsi : st.startIdx = none := by rw [h3, hnil]; rfl
        rw [h1, h2, hnil]
        simp [hsi, buildOpen]
      · have hsi : st.startIdx ≠ none := by
          rw [h3]
          simpa [List.getLast?_eq_none_iff] using hnil
        rw [h1, h2, if_pos hsi]
        have hsnoc := buildOpen_snoc ps (formStarts ps k) 1 k hnil
        rw [Nat.add_comm 1 (formStarts ps k).length] at hsnoc
        exact hsnoc
    · show st.counter + 1 = (formStarts ps (k + 1)).length + 1
      rw [hS, h2]
      simp
    · show some k = (formStarts ps (k + 1)).getLast?
      rw [hS]
      exact (List.getLast?_concat _).symm
  · have hS := formStarts_succ_nofire ps k hfire
    have hstep : formStep ps st k = st := by simp [formStep, hfire]
    rw [hstep]
    exact ⟨by rw [hS]; exact h1, by rw [hS]; exact h2, by rw [hS]; exact h3⟩

theorem formLoop_inv (ps : List String) (k : Nat) :
    FormInv ps k ((List.range k).foldl (formStep ps)
      { forms := [], counter := 1, startIdx := none }) := by
  induction k with
  | zero => exact ⟨rfl, rfl, rfl⟩
  | succ k ih =>
      rw [List.range_succ, List.foldl_append]
      exact formStep_inv ps k _ ih

/-- Claim C7 (confirmed): `detect_forms_in_appendix` returns form records
exactly at the paragraph indices whose score under the source's weights
reaches 50 (first conjunct: the record starts are precisely the filtered
indices, in order), the ranges are half-open and chained — every record's
end is the next record's start, and the last record's end is the paragraph
count (second conjunct: the ends are the tail of the starts followed by the
boundary) — and the starts are strictly increasing (third conjunct). -/
theorem C7_forms_structure (s : String) :
    (detectFormsInAppendix s).map FormRec.start
      = (List.range (pySplitNL s).length).filter (fun i => 50 ≤ formPoints (pySplitNL s) i)
    ∧ (detectFormsInAppendix s).map FormRec.endIdx
      = ((detectFormsInAppendix s).map FormRec.start).tail.map some
          ++ (if (detectFormsInAppendix s).isEmpty then []
              else [some (pySplitNL s).length])
    ∧ ((detectFormsInAppendix s).map FormRec.start).Pairwise (· < ·) := by
  have hfilter : formStarts (pySplitNL s) (pySplitNL s).length
      = (List.range (pySplitNL s).length).filter (fun i => 50 ≤ formPoints (pySplitNL s) i) := rfl
  obtain ⟨h1, h2, h3⟩ := formLoop_inv (pySplitNL s) (pySplitNL s).length
  have hpair : (formStarts (pySplitNL s) (pySplitNL s).length).Pairwise (· < ·) :=
    List.Pairwise.sublist (List.filter_sublist _) (List.pairwise_lt_range _)
  by_cases hnil : formStarts (pySplitNL s) (pySplitNL s).length = []
  · have hdet : detectFormsInAppendix s = [] := by
      simp only [detectFormsInAppendix]
      rw [h1, hnil]
      rfl
    rw [hdet]
    refine ⟨by rw [← hfilter, hnil]; rfl, rfl, List.Pairwise.nil⟩
  · obtain ⟨f, hf, he⟩ := buildOpen_getLast_endIdx (pySplitNL s)
      (formStarts (pySplitNL s) (pySplitNL s).length) 1 hnil
    have hdet : detectFormsInAppendix s
        = setLastEnd (buildOpen (pySplitNL s) (formStarts (pySplitNL s) (pySplitNL s).length) 1)
            (pySplitNL s).length := by
      simp only [detectFormsInAppendix]
      rw [h1, hf]
      simp only [he, if_pos]
    have hstart : (detectFormsInAppendix s).map FormRec.start
        = formStarts (pySplitNL s) (pySplitNL s).length := by
      rw [hdet, setLastEnd_map_start, buildOpen_map_start]
    have hne : detectFormsInAppendix s ≠ [] := by
      intro hcon
      rw [hcon] at hstart
      exact hnil hstart.symm
    have hempty : (detectFormsInAppendix s).isEmpty = false := by
      cases hd : detectFormsInAppendix s with
      | nil => exact absurd hd hne
      | cons a l => rfl
    refine ⟨by rw [hstart, hfilter], ?_, by rw [hstart]; exact hpair⟩
    rw [hdet, setLastEnd_map_endIdx _ _ (buildOpen_ne_nil _ _ _ hnil),
      buildOpen_map_endIdx _ _ _ hnil, List.dropLast_concat]
    rw [← hdet, hstart, hempty]
    simp

/-!
Claim C5 amended: `clean_redundant_content` is idempotent on separated
outputs.  The supporting lemmas establish that `str.strip` is idempotent,
that `str.replace(old, "")` is the identity when `old` does not occur, and
that the per-node deduplication fold therefore fixes already-clean content.
-/

theorem dropWhile_head_false {p : Char → Bool} :
    ∀ (l : List Char) (a : Char) (as : List Char), l.dropWhile p = a :: as → p a = false := by
  intro l
  induction l with
  | nil => intro a as h; simp [List.dropWhile] at h
  | cons c rest ih =>
      intro a as h
      rw [List.dropWhile_cons] at h
      by_cases hc : p c = true
      · rw [if_pos hc] at h
        exact ih a as h
      · rw [if_neg hc] at h
        injection h with h1 _
        rw [← h1]
        simpa using hc

theorem dropWhile_dropWhile {p : Char → Bool} (l : List Char) :
    (l.dropWhile p).dropWhile p = l.dropWhile p := by
  cases h : l.dropWhile p with
  | nil => rfl
  | cons a as =>
      have hpa := dropWhile_head_false l a as h
      simp [List.dropWhile_cons, hpa]

theorem dropWhile_eq_self_of_prefix {p : Char → Bool} {l S : List Char}
    (hl : l.dropWhile p = l) (hpre : S <+: l) : S.dropWhile p = S := by
  cases S with
  | nil => rfl
  | cons a as =>
      obtain ⟨t, ht⟩ := hpre
      have hpa : p a = false := by
        by_cases hcon : p a = true
        · exfalso
          rw [← ht, List.cons_append, List.dropWhile_cons, if_pos hcon] at hl
          have hlen := congrArg List.length hl
          have hle := (List.dropWhile_suffix (l := as ++ t) p).length_le
          rw [List.length_cons] at hlen
          omega
        · simpa using hcon
      simp [List.dropWhile_cons, hpa]

theorem pyStripL_idem (l : List Char) : pyStripL (pyStripL l) = pyStripL l := by
  unfold pyStripL
  have hDD : (l.dropWhile isPySpace).dropWhile isPySpace = l.dropWhile isPySpace :=
    dropWhile_dropWhile l
  have hpre : (((l.dropWhile isPySpace).reverse.dropWhile isPySpace).reverse)
      <+: l.dropWhile isPySpace := by
    rw [← List.reverse_suffix]
    simpa using List.dropWhile_suffix (l := (l.dropWhile isPySpace).reverse) isPySpace
  have hSd := dropWhile_eq_self_of_prefix hDD hpre
  rw [hSd, List.reverse_reverse, dropWhile_dropWhile]

theorem pyStrip_idem (s : String) : pyStrip (pyStrip s) = pyStrip s := by
  show (⟨pyStripL (pyStripL s.data)⟩ : String) = ⟨pyStripL s.data⟩
  rw [pyStripL_idem]

theorem eraseAllAux_nil_old : ∀ (fuel : Nat) (s : List Char), eraseAllAux [] fuel s = s := by
  intro fuel
  induction fuel with
  | zero => intro s; cases s <;> rfl
  | succ fuel ih =>
      intro s
      cases s with
      | nil => rfl
      | cons c rest => simp [eraseAllAux, ih]

theorem eraseAllAux_no_occur (old : List Char) :
    ∀ (fuel : Nat) (s : List Char), s.length < fuel → inSubL old s = false →
      eraseAllAux old fuel s = s := by
  intro fuel
  induction fuel with
  | zero => intro s h _; omega
  | succ fuel ih =>
      intro s hlen hocc
      cases s with
      | nil => rfl
      | cons c rest =>
          simp only [inSubL, Bool.or_eq_false_iff] at hocc
          simp only [eraseAllAux, hocc.1, Bool.and_false, Bool.false_eq_true, if_false]
          have : rest.length < fuel := by
            simp only [List.length_cons] at hlen
            omega
          rw [ih rest this hocc.2]

theorem eraseAllL_no_occur (old s : List Char) (h : inSubL old s = false) :
    eraseAllL old s = s :=
  eraseAllAux_no_occur old (s.length + 1) s (by omega) h

theorem cleanStep_fixed {c : String} (t : String) (hstrip : pyStrip c = c)
    (h : pyStrip t = "" ∨ inSub (pyStrip t) c = false) : cleanStep c t = c := by
  unfold cleanStep pyEraseAll
  cases h with
  | inl h0 =>
      rw [h0]
      show pyStrip ⟨eraseAllL ("" : String).data c.data⟩ = c
      rw [show ("" : String).data = [] from rfl]
      unfold eraseAllL
      rw [eraseAllAux_nil_old]
      exact hstrip
  | inr h1 =>
      unfold inSub at h1
      rw [eraseAllL_no_occur _ _ h1]
      exact hstrip

theorem foldl_cleanStep_fixed (lows : List String) (c : String) (hstrip : pyStrip c = c)
    (hall : ∀ t ∈ lows, pyStrip t = "" ∨ inSub (pyStrip t) c = false) :
    lows.foldl cleanStep c = c := by
  induction lows with
  | nil => rfl
  | cons t rest ih =>
      have hct : cleanStep c t = c := cleanStep_fixed t hstrip (hall t (List.mem_cons_self _ _))
      rw [List.foldl_cons, hct]
      exact ih fun x hx => hall x (List.mem_cons_of_mem _ hx)

theorem foldl_cleanStep_stripped : ∀ (lows : List String) (c : String), lows ≠ [] →
    pyStrip (lows.foldl cleanStep c) = lows.foldl cleanStep c
  | [], _, h => absurd rfl h
  | [t], c, _ => by
      rw [List.foldl_cons, List.foldl_nil]
      exact pyStrip_idem _
  | t :: t2 :: rest, c, _ => by
      rw [List.foldl_cons]
      exact foldl_cleanStep_stripped (t2 :: rest) (cleanStep c t) (by simp)

theorem cleanList_isEmpty (ss : List SectionNode) : (cleanList ss).isEmpty = ss.isEmpty := by
  cases ss <;> rfl

mutual
theorem cleanSection_fix : ∀ (sec : SectionNode), sepNode (cleanSection sec) = true →
    cleanSection (cleanSection sec) = cleanSection sec
  | .mk i h t c subs, hsep => by
      by_cases hempty : subs.isEmpty = true
      · have h1 : cleanSection (.mk i h t c subs) = .mk i h t c subs := by
          simp [cleanSection, hempty]
        rw [h1, h1]
      · have h1 : cleanSection (.mk i h t c subs)
            = .mk i h t (if c ≠ "" then (gatherLows (cleanList subs)).foldl cleanStep c else c)
                (cleanList subs) := by
          simp [cleanSection, hempty]
        rw [h1] at hsep ⊢
        simp only [sepNode, Bool.and_eq_true] at hsep
        obtain ⟨hsepl, hcond⟩ := hsep
        have hfix : cleanList (cleanList subs) = cleanList subs := cleanList_fix subs hsepl
        have hcleanedEmpty : (cleanList subs).isEmpty = false := by
          rw [cleanList_isEmpty]
          simpa using hempty
        have h2 : cleanSection (.mk i h t
              (if c ≠ "" then (gatherLows (cleanList subs)).foldl cleanStep c else c)
              (cleanList subs))
            = .mk i h t
                (if (if c ≠ "" then (gatherLows (cleanList subs)).foldl cleanStep c else c) ≠ ""
                 then (gatherLows (cleanList (cleanList subs))).foldl cleanStep
                        (if c ≠ "" then (gatherLows (cleanList subs)).foldl cleanStep c else c)
                 else (if c ≠ "" then (gatherLows (cleanList subs)).foldl cleanStep c else c))
                (cleanList (cleanList subs)) := by
          simp [cleanSection, hcleanedEmpty]
        rw [h2, hfix]
        rw [hcleanedEmpty] at hcond
        set c2 := if c ≠ "" then (gatherLows (cleanList subs)).foldl cleanStep c else c with hc2
        by_cases hc2e : c2 ≠ ""
        · rw [if_pos hc2e] at hcond ⊢
          by_cases hlows : gatherLows (cleanList subs) = []
          · rw [hlows, List.foldl_nil]
          · have hstrip : pyStrip c2 = c2 := by
              have hcne : c ≠ "" := by
                intro hce
                apply hc2e
                rw [hc2, hce]
                simp
              rw [hc2, if_pos hcne]
              exact foldl_cleanStep_stripped _ c hlows
            have hall : ∀ x ∈ gatherLows (cleanList subs),
                pyStrip x = "" ∨ inSub (pyStrip x) c2 = false := by
              intro x hx
              have := (List.all_eq_true.mp hcond) x hx
              rcases Bool.or_eq_true_iff.mp this with h0 | h0
              · exact Or.inl (of_decide_eq_true h0)
              · exact Or.inr (by simpa using h0)
            have := foldl_cleanStep_fixed (gatherLows (cleanList subs)) c2 hstrip hall
            rw [this]
        · rw [if_neg hc2e]
theorem cleanList_fix : ∀ (ss : List SectionNode), sepList (cleanList ss) = true →
    cleanList (cleanList ss) = cleanList ss
  | [], _ => rfl
  | s :: rest, hsep => by
      have hstep : cleanList (s :: rest) = cleanSection s :: cleanList rest := rfl
      rw [hstep] at hsep ⊢
      simp only [sepList, Bool.and_eq_true] at hsep
      obtain ⟨hs, hr⟩ := hsep
      show cleanSection (cleanSection s) :: cleanList (cleanList rest)
      = cleanSection s :: cleanList rest
      rw [cleanSection_fix s hs, cleanList_fix rest hr]
end

/-- Claim C5 amended (corrected): `clean_redundant_content` is idempotent on
every input whose cleaned output is separated — no node's content still
contains one of its subsections' stripped contents or titles as a substring.
In general it is not idempotent, because `str.replace(sub, "")` can glue
together a new occurrence of `sub` which only a second application removes. -/
theorem C5_amended_idempotent_when_separated (sections : List SectionNode)
    (h : sepList (cleanRedundantContent sections) = true) :
    cleanRedundantContent (cleanRedundantContent sections) = cleanRedundantContent sections :=
  cleanList_fix sections h

/-- Witness for the amended C5: a parent content that does not contain the
subsection content. -/
theorem C5_amended_witness :
    sepList (cleanRedundantContent [SectionNode.mk "p" "" "" "xy" [.mk "c" "" "" "ab" []]]) = true
    ∧ cleanRedundantContent (cleanRedundantContent
        [SectionNode.mk "p" "" "" "xy" [.mk "c" "" "" "ab" []]])
      = cleanRedundantContent [SectionNode.mk "p" "" "" "xy" [.mk "c" "" "" "ab" []]] :=
  ⟨by decide, C5_amended_idempotent_when_separated _ (by decide)⟩

end DocChunker
